import Mathlib

/-!
Verification of the Disk-Mosaic core: a shallow embedding of the file-size
helper (`src/util.rs`), the settings-based path filter (`src/settings.rs`)
and the zoom controller of the treemap panel (`src/ui/treemap_panel.rs`),
together with theorems settling the specification's claims about them.

Machine integers (`u64`) are modelled as `Nat` with explicit saturation at
`2 ^ 64 - 1` where the source uses `saturating_mul`; fallible operations
(Rust panics such as an out-of-range `Vec::swap_remove`) return `Option`,
`none` standing for the panic.
-/

namespace DiskMosaic

/-! ## util.rs -/

/-- The largest value a `u64` can hold. -/
def U64_MAX : Nat := 2 ^ 64 - 1

/-- Rust's `u64::saturating_mul`: the product, capped at `u64::MAX`. -/
def saturating_mul (a b : Nat) : Nat := min (a * b) U64_MAX

/-- The slice of `std::fs::Metadata` that `get_file_size` reads:
`blocks` is the 512-byte block count from `MetadataExt::blocks()` on Unix
(`none` on targets where the physical allocation cannot be determined, as in
the `#[cfg(not(unix))]` branch), and `len` is the logical length from
`Metadata::len()`. -/
structure Metadata where
  blocks : Option Nat
  len : Nat

/-- Embedding of `get_file_size` (src/util.rs lines 16-39). The argument is
`none` when `path.metadata()` fails, merging the `Ok`/`Err` outcome of both
`cfg` branches; within readable metadata, `blocks = some b` is the Unix
branch (`physical = blocks().saturating_mul(512)`, return `0` when
`physical < logical`, else `physical`) and `blocks = none` the non-Unix
branch, which falls back to the logical length. -/
def get_file_size (meta : Option Metadata) : Nat :=
  match meta with
  | none => 0
  | some m =>
    match m.blocks with
    | some b =>
      let physical := saturating_mul b 512
      if physical < m.len then 0 else physical
    | none => m.len

/-! ## Claims C1 and C2: sparse files and the logical-length fallback -/

/-- Claim C1: for every file whose metadata is readable, if the physical
on-disk allocation (block count times the 512-byte block size) is smaller
than the logical length, `get_file_size` returns 0 (the file is treated as
sparse and contributes nothing). The bound `len ≤ U64_MAX` records that the
logical length is a `u64`. -/
theorem C1_sparse_file_contributes_zero (b len : Nat) (hlen : len ≤ U64_MAX)
    (hb : b * 512 < len) :
    get_file_size (some ⟨some b, len⟩) = 0 := by
  have hmin : saturating_mul b 512 = b * 512 := by
    have : b * 512 ≤ U64_MAX := le_trans (Nat.le_of_lt hb) hlen
    simpa [saturating_mul] using Nat.min_eq_left this
  simp [get_file_size, hmin, hb]

/-- Witness for C1 at a concrete sparse file: 0 blocks, logical length 1. -/
theorem C1_sparse_file_contributes_zero_witness :
    get_file_size (some ⟨some 0, 1⟩) = 0 :=
  C1_sparse_file_contributes_zero 0 1 (by decide) (by decide)

/-- Claim C2: for every file whose physical on-disk allocation cannot be
determined (the metadata carries no block count, as on non-Unix targets),
`get_file_size` falls back to the file's logical length. -/
theorem C2_fallback_to_logical_length (len : Nat) :
    get_file_size (some ⟨none, len⟩) = len := rfl

/-! ## settings.rs: the path filter -/

/-- A `PathBuf`, as the list of its components; `PartialEq` on `PathBuf`
compares component-wise, which `List String` equality mirrors. -/
abbrev PathB := List String

/-- The slice of `Settings` (src/settings.rs) that the path filter reads:
the dirty flag, the configured `ignored_path` list and the
`ignore_cloud_mounts` toggle. -/
structure Settings where
  dirty : Bool
  ignored_path : List PathB
  ignore_cloud_mounts : Bool

/-- Embedding of `Settings::add_ignored_path` (src/settings.rs lines 67-71):
push the path onto `ignored_path` and mark the settings dirty. -/
def Settings.add_ignored_path (s : Settings) (path : PathB) : Settings :=
  { s with ignored_path := s.ignored_path ++ [path], dirty := true }

/-- Embedding of `Settings::is_path_ignored` (src/settings.rs lines 73-81).
`is_common_cloud_path` is passed as a parameter: in the source it is a
platform- and home-directory-dependent heuristic
(`Settings::is_common_cloud_path`) whose result the filter only consumes. -/
def Settings.is_path_ignored (is_common_cloud_path : PathB → Bool)
    (s : Settings) (path : PathB) : Bool :=
  if s.ignored_path.contains path then true
  else if s.ignore_cloud_mounts && is_common_cloud_path path then true
  else false

/-- Claim C9: adding a path to the ignore list makes `is_path_ignored`
accept it, and every path already contained in the configured ignored-path
list is accepted, whatever the cloud heuristic says. -/
theorem C9_ignored_path_roundtrip (is_common_cloud_path : PathB → Bool)
    (s : Settings) (p : PathB) :
    (s.add_ignored_path p).is_path_ignored is_common_cloud_path p = true ∧
      ∀ q ∈ s.ignored_path, s.is_path_ignored is_common_cloud_path q = true := by
  constructor
  · simp [Settings.add_ignored_path, Settings.is_path_ignored]
  · intro q hq
    simp [Settings.is_path_ignored, List.contains, List.elem_iff, hq]

/-! ## util.rs: PathBufToString and NFC normalization -/

/-- The two strings a `Path` hands to the `PathBufToString` accessors:
`file_name_str` is `path.file_name().and_then(|f| f.to_str())` (the final
component when it is valid UTF-8) and `os_str` is
`path.as_os_str().to_str()` (the full path string when valid UTF-8); both
come from the standard library, external to the repository. -/
structure OsPath where
  file_name_str : Option String
  os_str : Option String

/-- Embedding of `PathBufToString::name` (src/util.rs lines 47-52): the NFC
normalization of the file name, or the empty string when there is none. The
NFC transformation itself comes from the external `unicode_normalization`
crate and is passed as a parameter `nfc`. -/
def OsPath.name (nfc : String → String) (p : OsPath) : String :=
  (p.file_name_str.map nfc).getD ""

/-- Embedding of `PathBufToString::absolute_path` (src/util.rs lines 54-59):
the NFC normalization of the full path string, or the empty string when the
path is not valid UTF-8. -/
def OsPath.absolute_path (nfc : String → String) (p : OsPath) : String :=
  (p.os_str.map nfc).getD ""

/-- Claim C10: for a path whose file name (resp. full path string) is valid
UTF-8, `name` returns its NFC normalization and `absolute_path` returns the
NFC normalization of the full path string; a name already in NFC (a fixed
point of `nfc`) is returned unchanged. -/
theorem C10_accessors_apply_nfc (nfc : String → String) (p : OsPath)
    (s t : String) (hn : p.file_name_str = some s) (ha : p.os_str = some t) :
    p.name nfc = nfc s ∧ p.absolute_path nfc = nfc t ∧
      (nfc s = s → p.name nfc = s) := by
  refine ⟨?_, ?_, ?_⟩ <;>
    simp [OsPath.name, OsPath.absolute_path, hn, ha]

/-- Witness for C10 at a concrete path whose components are valid UTF-8,
with the identity as the normalization. -/
theorem C10_accessors_apply_nfc_witness :
    OsPath.name (fun s => s) ⟨some "a.txt", some "/home/a.txt"⟩ = "a.txt" ∧
      OsPath.absolute_path (fun s => s) ⟨some "a.txt", some "/home/a.txt"⟩ =
        "/home/a.txt" ∧
      ("a.txt" = "a.txt" →
        OsPath.name (fun s => s) ⟨some "a.txt", some "/home/a.txt"⟩ = "a.txt") :=
  C10_accessors_apply_nfc (fun s => s) ⟨some "a.txt", some "/home/a.txt"⟩
    "a.txt" "/home/a.txt" rfl rfl

/-! ## The node tree and the zoom controller (src/ui/treemap_panel.rs) -/

/-- A node of the size tree. Modelled from the spec: the repository's
`data.rs` (the `Data` struct and its `Kind` enum) is not among the source
files; the spec's data model ("Node: tagged variant {File, Dir}", File =
name, size, transient layout bounds; Dir = name, children, aggregated size,
bounds) and the usage in `treemap_panel.rs` (`data.kind` matched against
`Kind::Dir(children)`, `data.name`, `data.size()`, `data.bounds` with fields
`w` and `h`) fix the shape used here. `w` and `h` are the layout bounds'
width and height (`f64` in the source, modelled as `Rat`). -/
inductive Data where
  | file (name : String) (size : Nat) (w h : Rat)
  | dir (name : String) (size : Nat) (w h : Rat) (children : List Data)

/-- The bounds' width of a node. -/
def Data.w : Data → Rat
  | .file _ _ w _ => w
  | .dir _ _ w _ _ => w

/-- The bounds' height of a node. -/
def Data.h : Data → Rat
  | .file _ _ _ h => h
  | .dir _ _ _ h _ => h

/-- Rust's `matches!(data.kind, Kind::Dir(_))`. -/
def Data.isDir : Data → Bool
  | .file .. => false
  | .dir .. => true

/-- The analysis result. Modelled from the spec: the repository's
`analysis_result.rs` is not among the source files; the spec gives it
`root_path` (the absolute scanned path) and `data_stack` (an ordered
sequence of nodes, index 0 the root), and `treemap_panel.rs` uses
`data_stack.last_mut()`, `data_stack.push(..)`, `data_stack.len()` and a
method `selected_index(index)`. `selected` records which stack index is
considered current. -/
structure AnalysisResult where
  root_path : PathB
  data_stack : List Data
  selected : Nat

/-- Modelled from the spec: `AnalysisResult::selected_index` lives in the
missing `analysis_result.rs`; per the spec's ancestor re-select, it simply
changes which stack index is considered "current" without restoring any
previously detached node. -/
def AnalysisResult.selected_index (ar : AnalysisResult) (index : Nat) :
    AnalysisResult :=
  { ar with selected := index }

/-- Rust's `Vec::swap_remove(i)`: the removed element together with the
vector where position `i` now holds the former last element and the last
slot is gone; `none` when `i` is out of range (the source panics there). -/
def swapRemove {α : Type} (l : List α) (i : Nat) : Option (α × List α) :=
  match l.get? i with
  | none => none
  | some x => some (x, (l.set i (l.getLast?.getD x)).dropLast)

/-- Embedding of `TreeMapPanel::zoom_in` (src/ui/treemap_panel.rs lines
142-159). `can_zoom_in` is the panel's read-only zoom-enable flag. The
result is `none` exactly when the source panics (an out-of-range
`swap_remove`): when the flag is off, the stack is empty, the stack top is
not a Dir, or the selected child is not a Dir, the state is returned
unchanged. -/
def zoom_in (can_zoom_in : Bool) (ar : AnalysisResult) (index : Nat) :
    Option AnalysisResult :=
  if !can_zoom_in then some ar
  else
    match ar.data_stack.getLast? with
    | none => some ar
    | some (Data.file ..) => some ar
    | some (Data.dir n s w h children) =>
      if ((children.get? index).map (fun d => !d.isDir)).getD false then
        some ar
      else
        match swapRemove children index with
        | none => none
        | some (taken, rest) =>
          some ⟨ar.root_path,
                ar.data_stack.dropLast ++ [Data.dir n s w h rest, taken],
                ar.selected⟩

/-- Embedding of `TreeMapPanel::zoom` (src/ui/treemap_panel.rs lines
131-140): a positive scroll delta with stack depth ≥ 2 re-selects the
ancestor at depth − 2; a negative delta over a hovered item zooms into it.
`delta` is the wheel delta (`f32` in the source, modelled as `Rat`: only its
sign is inspected). -/
def zoom (can_zoom_in : Bool) (ar : AnalysisResult)
    (hovered_data_index : Option Nat) (delta : Rat) : Option AnalysisResult :=
  if 0 < delta ∧ 2 ≤ ar.data_stack.length then
    some (ar.selected_index (ar.data_stack.length - 2))
  else if delta < 0 then
    match hovered_data_index with
    | some hovered_index => zoom_in can_zoom_in ar hovered_index
    | none => some ar
  else some ar

/-- The display pass's interactive items (src/ui/treemap_panel.rs lines
44-52): the current Dir's children, enumerated, filtered to those whose
layout bounds have positive width and positive height
(`data.bounds.w > 0.0 && data.bounds.h > 0.0`). -/
def interactiveItems (children : List Data) : List (Nat × Data) :=
  children.enum.filter fun p => decide (0 < p.2.w) && decide (0 < p.2.h)

/-! ## Claims C3 to C8: zooming and the interactive display pass -/

/-- Claim C3: with zooming enabled and the stack top a Dir, `zoom_in` at an
index designating a child Dir removes that child from the parent's child
collection by swap-with-last removal, pushes it as the new stack top, and
the stack depth grows by exactly one. -/
theorem C3_zoom_in_dir_child (ar : AnalysisResult) (index : Nat) (n : String)
    (s : Nat) (w h : Rat) (children : List Data) (d : Data)
    (hlast : ar.data_stack.getLast? = some (Data.dir n s w h children))
    (hget : children.get? index = some d) (hdir : d.isDir = true) :
    ∃ rest,
      swapRemove children index = some (d, rest) ∧
      zoom_in true ar index =
        some ⟨ar.root_path,
              ar.data_stack.dropLast ++ [Data.dir n s w h rest, d],
              ar.selected⟩ ∧
      (ar.data_stack.dropLast ++ [Data.dir n s w h rest, d]).length =
        ar.data_stack.length + 1 := by
  have hget' : children[index]? = some d := by
    simpa [List.get?_eq_getElem?] using hget
  refine ⟨(children.set index (children.getLast?.getD d)).dropLast, ?_, ?_, ?_⟩
  · simp [swapRemove, hget']
  · simp [zoom_in, hlast, hget', hdir, swapRemove]
  · have hne : ar.data_stack ≠ [] := by
      intro he
      simp [he] at hlast
    have hpos : 0 < ar.data_stack.length := List.length_pos.mpr hne
    simp [List.length_dropLast]
    omega

/-- Witness for C3: a stack whose top Dir has one child Dir; zooming into it
pushes the child and the depth goes from 1 to 2. -/
theorem C3_zoom_in_dir_child_witness :
    ∃ rest,
      swapRemove [Data.dir "c" 1 1 1 []] 0 = some (Data.dir "c" 1 1 1 [], rest) ∧
      zoom_in true ⟨[], [Data.dir "r" 2 1 1 [Data.dir "c" 1 1 1 []]], 0⟩ 0 =
        some ⟨[], [Data.dir "r" 2 1 1 rest, Data.dir "c" 1 1 1 []], 0⟩ ∧
      [Data.dir "r" 2 1 1 rest, Data.dir "c" 1 1 1 []].length =
        [Data.dir "r" 2 1 1 [Data.dir "c" 1 1 1 []]].length + 1 :=
  C3_zoom_in_dir_child ⟨[], [Data.dir "r" 2 1 1 [Data.dir "c" 1 1 1 []]], 0⟩ 0
    "r" 2 1 1 [Data.dir "c" 1 1 1 []] (Data.dir "c" 1 1 1 []) rfl rfl rfl

/-- Claim C4: when the stack top is a Dir and the index designates a File
child, `zoom_in` is a no-op: the whole state (stack and the parent's child
collection) is returned unchanged, whatever the zoom-enable flag. -/
theorem C4_zoom_in_file_child_noop (can_zoom_in : Bool) (ar : AnalysisResult)
    (index : Nat) (n : String) (s : Nat) (w h : Rat) (children : List Data)
    (d : Data) (hlast : ar.data_stack.getLast? = some (Data.dir n s w h children))
    (hget : children.get? index = some d) (hfile : d.isDir = false) :
    zoom_in can_zoom_in ar index = some ar := by
  have hget' : children[index]? = some d := by
    simpa [List.get?_eq_getElem?] using hget
  cases can_zoom_in with
  | false => rfl
  | true => simp [zoom_in, hlast, hget', hfile]

/-- Witness for C4: zooming into the single File child leaves the state
unchanged. -/
theorem C4_zoom_in_file_child_noop_witness :
    zoom_in true ⟨[], [Data.dir "r" 2 1 1 [Data.file "f" 1 1 1]], 0⟩ 0 =
      some ⟨[], [Data.dir "r" 2 1 1 [Data.file "f" 1 1 1]], 0⟩ :=
  C4_zoom_in_file_child_noop true
    ⟨[], [Data.dir "r" 2 1 1 [Data.file "f" 1 1 1]], 0⟩ 0
    "r" 2 1 1 [Data.file "f" 1 1 1] (Data.file "f" 1 1 1) rfl rfl rfl

/-- Claim C5: with zooming enabled and the stack top a Dir with `n`
children, `zoom_in` at an index out of range of the child collection panics
in `swap_remove` (result `none`) instead of being a no-op: the File check
via `children.get` returns `None` and control falls through to the
unguarded removal. -/
theorem C5_zoom_in_out_of_range_panics (ar : AnalysisResult) (index : Nat)
    (n : String) (s : Nat) (w h : Rat) (children : List Data)
    (hlast : ar.data_stack.getLast? = some (Data.dir n s w h children))
    (hoob : children.length ≤ index) :
    zoom_in true ar index = none := by
  have hnone : children[index]? = none := List.getElem?_eq_none hoob
  simp [zoom_in, hlast, hnone, swapRemove]

/-- Witness for C5: the top Dir has no children, so index 0 is out of range
and `zoom_in` panics. -/
theorem C5_zoom_in_out_of_range_panics_witness :
    zoom_in true ⟨[], [Data.dir "r" 0 1 1 []], 0⟩ 0 = none :=
  C5_zoom_in_out_of_range_panics ⟨[], [Data.dir "r" 0 1 1 []], 0⟩ 0
    "r" 0 1 1 [] rfl (by decide)

/-- Claim C6: with stack depth ≥ 2, a scroll-gesture zoom with positive
delta performs ancestor re-select: the result differs from the input state
only in the current stack index, which becomes depth − 2; `data_stack` (and
hence every child collection hanging off it) is unchanged and no detached
node is restored. -/
theorem C6_scroll_ancestor_reselect (can_zoom_in : Bool) (ar : AnalysisResult)
    (hovered_data_index : Option Nat) (delta : Rat) (hpos : 0 < delta)
    (hdepth : 2 ≤ ar.data_stack.length) :
    zoom can_zoom_in ar hovered_data_index delta =
      some ⟨ar.root_path, ar.data_stack, ar.data_stack.length - 2⟩ := by
  simp [zoom, hpos, hdepth, AnalysisResult.selected_index]

/-- Witness for C6: a depth-2 stack scrolled with delta 1 re-selects stack
index 0 and leaves the stack itself untouched. -/
theorem C6_scroll_ancestor_reselect_witness :
    zoom true ⟨[], [Data.dir "r" 1 1 1 [], Data.dir "c" 1 1 1 []], 1⟩ none 1 =
      some ⟨[], [Data.dir "r" 1 1 1 [], Data.dir "c" 1 1 1 []], 0⟩ :=
  C6_scroll_ancestor_reselect true
    ⟨[], [Data.dir "r" 1 1 1 [], Data.dir "c" 1 1 1 []], 1⟩ none 1
    (by norm_num) (by decide)

/-- Claim C7: when the zoom-enable flag is off, `zoom_in` has no effect on
any state at any index: the whole state (stack and child collections) is
returned unchanged. -/
theorem C7_zoom_in_disabled_noop (ar : AnalysisResult) (index : Nat) :
    zoom_in false ar index = some ar := rfl

/-- Claim C8: in the display pass over the current Dir's children, exactly
those children whose layout bounds have positive width and positive height
are presented as interactive items; children with zero-area bounds are
excluded. -/
theorem C8_interactive_iff_positive_bounds (children : List Data) (i : Nat)
    (d : Data) :
    (i, d) ∈ interactiveItems children ↔
      children.get? i = some d ∧ 0 < d.w ∧ 0 < d.h := by
  simp [interactiveItems, List.mem_filter, List.mk_mem_enum_iff_getElem?,
    List.get?_eq_getElem?, and_assoc]

end DiskMosaic
